import Mathlib

/-!
Verification of the node-pool lifecycle logic of the terraform-provider-k8snp
repository (internal/provider/node_pool_resource.go), as a shallow embedding.

Modelling conventions:
- Time is measured in seconds; the readiness poll interval (time.Second in the
  source) is 1, and `ready_timeout` is the parsed duration in seconds.
- The cluster control plane is an oracle: the node-list call is an
  `Except String (List Node)` (error string = the Go error's message), and the
  cordon / drain calls are `String → Option String` keyed by node name
  (`none` = success, `some e` = failure with message `e`).
- Each externally visible action (list call, sleep, cordon, drain) is recorded
  as an `Event` in the order the Go code performs it, so temporal claims are
  statements about the produced event trace.
- Diagnostics produced via `resp.Diagnostics.AddError(title, detail)` are
  modelled as outcome constructors carrying the exact `title` and `detail`
  strings the Go code formats; whether `resp.State.Set` ran is the `persisted`
  flag of a create run.
-/

/-- Status of a node condition, mirroring v1.ConditionTrue / ConditionFalse /
ConditionUnknown. -/
inductive ConditionStatus
  | conditionTrue
  | conditionFalse
  | conditionUnknown
deriving DecidableEq

/-- One entry of a node's condition list: `condType` mirrors `condition.Type`
(a string; the value v1.NodeReady is the string "Ready") and `status` mirrors
`condition.Status`. -/
structure NodeCondition where
  condType : String
  status : ConditionStatus
deriving DecidableEq

/-- Mirror of the `Status.Conditions` part of v1.Node used by the code. -/
structure NodeStatus where
  conditions : List NodeCondition
deriving DecidableEq

/-- Mirror of the parts of v1.Node the code reads: `Name` and
`Status.Conditions`. -/
structure Node where
  name : String
  status : NodeStatus
deriving DecidableEq

/-- The string constant v1.NodeReady. -/
def nodeReady : String := "Ready"

/-- Inner loop of countReadyNodes: scans a node's condition list in order and,
at the FIRST entry whose type is "Ready", contributes 1 if its status is True
and 0 otherwise, then stops (the `break` in the Go loop). A list with no
"Ready" entry contributes 0. -/
def nodeReadyContribution : List NodeCondition → Int
  | [] => 0
  | c :: rest =>
      if c.condType = nodeReady then
        (if c.status = ConditionStatus.conditionTrue then 1 else 0)
      else nodeReadyContribution rest

/-- Embedding of `countReadyNodes(nodes []v1.Node) int64` from
node_pool_resource.go: folds the per-node contribution over the node list. -/
def countReadyNodes (nodes : List Node) : Int :=
  nodes.foldl (fun acc n => acc + nodeReadyContribution n.status.conditions) 0

/-- Boolean form of the per-node test actually implemented: the first
condition entry of type "Ready" exists and has status True. -/
def firstReadyIsTrue : List NodeCondition → Bool
  | [] => false
  | c :: rest =>
      if c.condType = nodeReady then c.status = ConditionStatus.conditionTrue
      else firstReadyIsTrue rest

/-- Modelled from the claim wording (spec §4.1): the number of nodes whose
condition list CONTAINS an entry of type "Ready" with status True. Used only
to compare the spec's description with `countReadyNodes`. -/
def specReadyCount (nodes : List Node) : Int :=
  Int.ofNat ((nodes.filter
    (fun n => n.status.conditions.any
      (fun c => decide (c.condType = nodeReady) &&
                decide (c.status = ConditionStatus.conditionTrue)))).length)

/-- Does the character list start with `sub`? -/
def charsHead : List Char → List Char → Bool
  | [], _ => true
  | _ :: _, [] => false
  | c :: cs, x :: xs => if c = x then charsHead cs xs else false

/-- Does `sub` occur as a contiguous run somewhere in the character list? -/
def subChars (sub : List Char) : List Char → Bool
  | [] => charsHead sub []
  | x :: xs => charsHead sub (x :: xs) || subChars sub xs

/-- String containment: `sub` occurs as a substring of `s`. -/
def containsStr (s sub : String) : Bool :=
  subChars sub.data s.data

/-- Externally visible actions of a create or delete invocation, in program
order. `sleep` records the duration slept in seconds. -/
inductive Event
  | listCall
  | sleep (seconds : Nat)
  | cordonOk (node : String)
  | cordonFail (node : String)
  | drainOk (node : String)
  | drainFail (node : String)
deriving DecidableEq

/-- Title of the diagnostic added when the create loop's node-list call
fails. -/
def createAccessTitle : String := "Error creating safe node pool"

/-- Detail of the diagnostic added when the create loop's node-list call
fails, as formatted by the Go code. -/
def createAccessDetail (pool err : String) : String :=
  "Could not create safe node pool, unexpected error listing current nodes in pool " ++ pool ++ ": " ++ err

/-- Title of the diagnostic added when the readiness deadline passes. -/
def createTimeoutTitle : String := "Error waiting for nodes to be ready"

/-- Detail of the diagnostic added when the readiness deadline passes, as
formatted by the Go code. -/
def createTimeoutDetail (minReady : Int) (pool : String) : String :=
  "Could not find " ++ toString minReady ++ " ready nodes in node pool " ++ pool ++ " in the specified timeout"

/-- Outcome of a create invocation: success, or one of the two AddError call
sites of `Create` with the exact title and detail strings it formats. -/
inductive CreateOutcome
  | success
  | accessFailure (title detail : String)
  | timeoutFailure (title detail : String)
deriving DecidableEq

/-- Result of a create invocation: the event trace, the outcome, and whether
`resp.State.Set` was reached (`persisted`). -/
structure CreateResult where
  events : List Event
  outcome : CreateOutcome
  persisted : Bool
deriving DecidableEq

/-- Embedding of the polling loop of `Create`: `remaining` is the number of
whole seconds left until `deadline` (so the loop guard `time.Now().Before(deadline)`
is `remaining ≠ 0`), and `i` indexes the successive node-list calls answered by
the oracle `env`. Each iteration lists the nodes; an error aborts with the
access diagnostic and WITHOUT persisting state; a ready count ≥ `minReady`
succeeds and persists state; otherwise the loop sleeps one second and retries.
When the deadline passes the timeout diagnostic is added and state is STILL
persisted (the final `resp.State.Set` of `Create`). -/
def createLoop (pool : String) (minReady : Int)
    (env : Nat → Except String (List Node)) :
    Nat → Nat → CreateResult
  | 0, _ =>
      ⟨[], CreateOutcome.timeoutFailure createTimeoutTitle
        (createTimeoutDetail minReady pool), true⟩
  | remaining + 1, i =>
      match env i with
      | Except.error e =>
          ⟨[Event.listCall],
            CreateOutcome.accessFailure createAccessTitle
              (createAccessDetail pool e), false⟩
      | Except.ok nodes =>
          if countReadyNodes nodes ≥ minReady then
            ⟨[Event.listCall], CreateOutcome.success, true⟩
          else
            let r := createLoop pool minReady env remaining (i + 1)
            ⟨Event.listCall :: Event.sleep 1 :: r.events, r.outcome, r.persisted⟩

/-- A whole create invocation, after the plan has been read: run the polling
loop from poll index 0 with `readyTimeout` seconds on the clock. -/
def createRun (pool : String) (minReady : Int)
    (env : Nat → Except String (List Node)) (readyTimeout : Nat) : CreateResult :=
  createLoop pool minReady env readyTimeout 0

/-- Title of every diagnostic added by `Delete`. -/
def deleteErrTitle : String := "Error deleting safe node pool"

/-- Detail of the diagnostic added when the initial node-list call of
`Delete` fails. -/
def deleteAccessDetail (pool err : String) : String :=
  "Could not delete safe node pool, unexpected error listing nodes in pool " ++ pool ++ ": " ++ err

/-- Detail of the diagnostic added when cordoning a node fails. -/
def cordonErrDetail (nodeName err : String) : String :=
  "Could not delete safe node pool, unexpected error cordoning node " ++ nodeName ++ ": " ++ err

/-- Detail of the diagnostic added when draining a node fails. -/
def drainErrDetail (nodeName err : String) : String :=
  "Could not delete safe node pool, unexpected error draining node " ++ nodeName ++ ": " ++ err

/-- Outcome of a delete invocation: success, or an AddError with the exact
title and detail strings `Delete` formats. -/
inductive DeleteOutcome
  | success
  | failure (title detail : String)
deriving DecidableEq

/-- Result of a delete invocation: the event trace and the outcome. -/
structure DeleteResult where
  events : List Event
  outcome : DeleteOutcome
deriving DecidableEq

/-- First loop of `Delete`: cordon every listed node in order
(`drain.RunCordonOrUncordon(drainer, &node, true)`); on the first failure
return the failing node's name and error, having emitted `cordonOk` events for
the nodes already cordoned and a `cordonFail` event for the failing one. -/
def cordonPhase (cordonRes : String → Option String) :
    List Node → List Event × Option (String × String)
  | [] => ([], none)
  | n :: rest =>
      match cordonRes n.name with
      | some e => ([Event.cordonFail n.name], some (n.name, e))
      | none =>
          let r := cordonPhase cordonRes rest
          (Event.cordonOk n.name :: r.1, r.2)

/-- Second loop of `Delete`: drain the nodes one at a time in the same order
(`drain.RunNodeDrain(drainer, node.Name)`); after each successful drain the
code sleeps `drainWait` (`time.Sleep(drainWait)`) before the next iteration;
on the first failure return the failing node's name and error. -/
def drainPhase (drainRes : String → Option String) (drainWait : Nat) :
    List Node → List Event × Option (String × String)
  | [] => ([], none)
  | n :: rest =>
      match drainRes n.name with
      | some e => ([Event.drainFail n.name], some (n.name, e))
      | none =>
          let r := drainPhase drainRes drainWait rest
          (Event.drainOk n.name :: Event.sleep drainWait :: r.1, r.2)

/-- The drain-phase event trace of a run in which every node of the list
drains successfully: a `drainOk` immediately followed by a `sleep drainWait`,
node after node in enumeration order. -/
def drainOkEvents (drainWait : Nat) : List Node → List Event
  | [] => []
  | n :: rest => Event.drainOk n.name :: Event.sleep drainWait :: drainOkEvents drainWait rest

/-- A whole delete invocation, after the prior state has been read: list the
nodes (aborting with the access diagnostic on error), cordon them all
(aborting with the cordon diagnostic on the first failure, before any drain),
then drain them one at a time with the inter-node sleep (aborting with the
drain diagnostic on the first failure). -/
def deleteRun (pool : String) (listRes : Except String (List Node))
    (cordonRes drainRes : String → Option String) (drainWait : Nat) : DeleteResult :=
  match listRes with
  | Except.error e =>
      ⟨[Event.listCall], DeleteOutcome.failure deleteErrTitle (deleteAccessDetail pool e)⟩
  | Except.ok nodes =>
      let c := cordonPhase cordonRes nodes
      match c.2 with
      | some fe =>
          ⟨Event.listCall :: c.1, DeleteOutcome.failure deleteErrTitle (cordonErrDetail fe.1 fe.2)⟩
      | none =>
          let d := drainPhase drainRes drainWait nodes
          match d.2 with
          | some fe =>
              ⟨Event.listCall :: (c.1 ++ d.1),
                DeleteOutcome.failure deleteErrTitle (drainErrDetail fe.1 fe.2)⟩
          | none => ⟨Event.listCall :: (c.1 ++ d.1), DeleteOutcome.success⟩

/-- Is the event a cordon attempt (successful or failed)? -/
def isCordonEvent : Event → Bool
  | Event.cordonOk _ => true
  | Event.cordonFail _ => true
  | _ => false

/-- Is the event a drain attempt (successful or failed)? -/
def isDrainEvent : Event → Bool
  | Event.drainOk _ => true
  | Event.drainFail _ => true
  | _ => false

/-- The resource data model of node_pool_resource.go
(`NodePoolResourceModel`), with the seven tfsdk fields. -/
structure NodePoolResourceModel where
  nodePoolName : String
  nodeSelectorKey : String
  nodeSelectorValue : Option String
  minReadyNodes : Int
  readyTimeout : String
  drainTimeout : String
  drainWaitTime : String
deriving DecidableEq

/-- Embedding of `Read`: read the prior state into the model (the oracle says
whether that succeeded); on error return without setting state, otherwise set
the state to exactly the model that was read. No cluster call, sleep, cordon
or drain happens, so the event trace is empty. -/
def readOp (priorState : Except String NodePoolResourceModel) :
    List Event × Option NodePoolResourceModel :=
  match priorState with
  | Except.error _ => ([], none)
  | Except.ok m => ([], some m)

/-- Embedding of `Update`: read the plan into the model; on error return
without setting state, otherwise set the state to exactly the plan model. No
cluster call, sleep, cordon or drain happens, so the event trace is empty. -/
def updateOp (plan : Except String NodePoolResourceModel) :
    List Event × Option NodePoolResourceModel :=
  match plan with
  | Except.error _ => ([], none)
  | Except.ok m => ([], some m)

theorem subChars_nil (l : List Char) : subChars [] l = true := by
  induction l with
  | nil => rfl
  | cons x xs ih => simp [subChars, charsHead]

theorem charsHead_self_append (sub b : List Char) : charsHead sub (sub ++ b) = true := by
  induction sub with
  | nil => rfl
  | cons c cs ih => simp [charsHead, ih]

theorem subChars_self_append (sub b : List Char) : subChars sub (sub ++ b) = true := by
  cases sub with
  | nil => exact subChars_nil b
  | cons c cs =>
      have h := charsHead_self_append (c :: cs) b
      simp only [List.cons_append] at h
      simp only [subChars, Bool.or_eq_true]
      exact Or.inl h

theorem subChars_cons (sub : List Char) (x : Char) (xs : List Char)
    (h : subChars sub xs = true) : subChars sub (x :: xs) = true := by
  simp [subChars, h]

theorem subChars_append_left (sub x l : List Char) (h : subChars sub l = true) :
    subChars sub (x ++ l) = true := by
  induction x with
  | nil => exact h
  | cons c cs ih => exact subChars_cons _ _ _ ih

theorem charsHead_append (sub y : List Char) :
    ∀ l, charsHead sub l = true → charsHead sub (l ++ y) = true := by
  induction sub with
  | nil => intro l _; rfl
  | cons c cs ih =>
      intro l h
      cases l with
      | nil => exact absurd h (by simp [charsHead])
      | cons x xs =>
          by_cases hcx : c = x
          · simp only [charsHead, List.cons_append, if_pos hcx] at h ⊢
            exact ih xs h
          · simp only [charsHead, if_neg hcx] at h
            exact Bool.noConfusion h

theorem subChars_append_right (sub y : List Char) :
    ∀ l, subChars sub l = true → subChars sub (l ++ y) = true := by
  intro l
  induction l with
  | nil =>
      intro h
      cases sub with
      | nil => exact subChars_nil y
      | cons c cs => exact absurd h (by simp [subChars, charsHead])
  | cons x xs ih =>
      intro h
      simp only [subChars, Bool.or_eq_true] at h
      rcases h with h | h
      · simp only [List.cons_append, subChars, Bool.or_eq_true]
        exact Or.inl (charsHead_append sub y _ h)
      · exact subChars_cons _ _ _ (ih h)

theorem timeoutDetail_contains_min (m : Int) (p : String) :
    containsStr (createTimeoutDetail m p) (toString m) = true := by
  simp only [createTimeoutDetail, containsStr, String.data_append, List.append_assoc]
  exact subChars_append_left _ _ _ (subChars_self_append _ _)

theorem timeoutDetail_contains_pool (m : Int) (p : String) :
    containsStr (createTimeoutDetail m p) p = true := by
  simp only [createTimeoutDetail, containsStr, String.data_append, List.append_assoc]
  exact subChars_append_left _ _ _ (subChars_append_left _ _ _
    (subChars_append_left _ _ _ (subChars_self_append _ _)))

theorem cordonErrDetail_contains_name (n e : String) :
    containsStr (cordonErrDetail n e) n = true := by
  simp only [cordonErrDetail, containsStr, String.data_append, List.append_assoc]
  exact subChars_append_left _ _ _ (subChars_self_append _ _)

theorem cordonErrDetail_contains_phase (n e : String) :
    containsStr (cordonErrDetail n e) "cordoning" = true := by
  simp only [cordonErrDetail, containsStr, String.data_append, List.append_assoc]
  exact subChars_append_right _ _ _ (by decide)

theorem drainErrDetail_contains_name (n e : String) :
    containsStr (drainErrDetail n e) n = true := by
  simp only [drainErrDetail, containsStr, String.data_append, List.append_assoc]
  exact subChars_append_left _ _ _ (subChars_self_append _ _)

theorem drainErrDetail_contains_phase (n e : String) :
    containsStr (drainErrDetail n e) "draining" = true := by
  simp only [drainErrDetail, containsStr, String.data_append, List.append_assoc]
  exact subChars_append_right _ _ _ (by decide)

theorem createLoop_timeout_message (pool : String) (m : Int)
    (env : Nat → Except String (List Node)) :
    ∀ remaining i t d,
      (createLoop pool m env remaining i).outcome = CreateOutcome.timeoutFailure t d →
      t = createTimeoutTitle ∧ d = createTimeoutDetail m pool := by
  intro remaining
  induction remaining with
  | zero =>
      intro i t d h
      simp only [createLoop] at h
      cases h
      exact ⟨rfl, rfl⟩
  | succ r ih =>
      intro i t d h
      cases henv : env i with
      | error e => simp [createLoop, henv] at h
      | ok nodes =>
          simp only [createLoop, henv] at h
          by_cases hready : countReadyNodes nodes ≥ m
          · rw [if_pos hready] at h; simp at h
          · rw [if_neg hready] at h
            exact ih (i + 1) t d h

theorem createLoop_persisted (pool : String) (m : Int)
    (env : Nat → Except String (List Node)) :
    ∀ remaining i,
      (createLoop pool m env remaining i).persisted = true ↔
        ((createLoop pool m env remaining i).outcome = CreateOutcome.success ∨
         (createLoop pool m env remaining i).outcome =
           CreateOutcome.timeoutFailure createTimeoutTitle (createTimeoutDetail m pool)) := by
  intro remaining
  induction remaining with
  | zero => intro i; simp [createLoop]
  | succ r ih =>
      intro i
      cases henv : env i with
      | error e => simp [createLoop, henv]
      | ok nodes =>
          simp only [createLoop, henv]
          by_cases hready : countReadyNodes nodes ≥ m
          · rw [if_pos hready]; simp
          · rw [if_neg hready]
            exact ih (i + 1)

theorem cordonPhase_all_ok (c : String → Option String) :
    ∀ ns : List Node, (∀ n ∈ ns, c n.name = none) →
      cordonPhase c ns = (ns.map (fun n => Event.cordonOk n.name), none) := by
  intro ns
  induction ns with
  | nil => intro _; rfl
  | cons n rest ih =>
      intro h
      have hn : c n.name = none := h n (List.mem_cons_self n rest)
      have hrest := ih (fun x hx => h x (List.mem_cons_of_mem n hx))
      simp [cordonPhase, hn, hrest]

theorem cordonPhase_none_events (c : String → Option String) :
    ∀ ns : List Node, (cordonPhase c ns).2 = none →
      (cordonPhase c ns).1 = ns.map (fun n => Event.cordonOk n.name) := by
  intro ns
  induction ns with
  | nil => intro _; rfl
  | cons n rest ih =>
      intro h
      cases hn : c n.name with
      | some e => simp [cordonPhase, hn] at h
      | none =>
          simp only [cordonPhase, hn] at h ⊢
          simp only [List.map_cons, List.cons.injEq, true_and]
          exact ih h

theorem cordonPhase_fail (c : String → Option String) (nk : Node) (e : String)
    (post : List Node) :
    ∀ pre : List Node, (∀ n ∈ pre, c n.name = none) → c nk.name = some e →
      cordonPhase c (pre ++ nk :: post) =
        (pre.map (fun n => Event.cordonOk n.name) ++ [Event.cordonFail nk.name],
          some (nk.name, e)) := by
  intro pre
  induction pre with
  | nil => intro _ hk; simp [cordonPhase, hk]
  | cons n rest ih =>
      intro h hk
      have hn : c n.name = none := h n (List.mem_cons_self n rest)
      have hrest := ih (fun x hx => h x (List.mem_cons_of_mem n hx)) hk
      simp [cordonPhase, hn, hrest]

theorem cordonPhase_no_drain (c : String → Option String) :
    ∀ ns : List Node, ∀ e ∈ (cordonPhase c ns).1, isDrainEvent e = false := by
  intro ns
  induction ns with
  | nil => intro e he; simp [cordonPhase] at he
  | cons n rest ih =>
      intro e he
      cases hn : c n.name with
      | some err =>
          simp only [cordonPhase, hn, List.mem_singleton] at he
          subst he; rfl
      | none =>
          simp only [cordonPhase, hn, List.mem_cons] at he
          rcases he with rfl | he
          · rfl
          · exact ih e he

theorem drainPhase_no_cordon (d : String → Option String) (w : Nat) :
    ∀ ns : List Node, ∀ e ∈ (drainPhase d w ns).1, isCordonEvent e = false := by
  intro ns
  induction ns with
  | nil => intro e he; simp [drainPhase] at he
  | cons n rest ih =>
      intro e he
      cases hn : d n.name with
      | some err =>
          simp only [drainPhase, hn, List.mem_singleton] at he
          subst he; rfl
      | none =>
          simp only [drainPhase, hn, List.mem_cons] at he
          rcases he with rfl | he
          · rfl
          · rcases he with rfl | he
            · rfl
            · exact ih e he

theorem drainPhase_all_ok (d : String → Option String) (w : Nat) :
    ∀ ns : List Node, (∀ n ∈ ns, d n.name = none) →
      drainPhase d w ns = (drainOkEvents w ns, none) := by
  intro ns
  induction ns with
  | nil => intro _; rfl
  | cons n rest ih =>
      intro h
      have hn : d n.name = none := h n (List.mem_cons_self n rest)
      have hrest := ih (fun x hx => h x (List.mem_cons_of_mem n hx))
      simp [drainPhase, drainOkEvents, hn, hrest]

theorem drainPhase_fail (d : String → Option String) (w : Nat) (nk : Node)
    (e : String) (post : List Node) :
    ∀ pre : List Node, (∀ n ∈ pre, d n.name = none) → d nk.name = some e →
      drainPhase d w (pre ++ nk :: post) =
        (drainOkEvents w pre ++ [Event.drainFail nk.name], some (nk.name, e)) := by
  intro pre
  induction pre with
  | nil => intro _ hk; simp [drainPhase, drainOkEvents, hk]
  | cons n rest ih =>
      intro h hk
      have hn : d n.name = none := h n (List.mem_cons_self n rest)
      have hrest := ih (fun x hx => h x (List.mem_cons_of_mem n hx)) hk
      simp [drainPhase, drainOkEvents, hn, hrest]

theorem nodeReadyContribution_eq (conds : List NodeCondition) :
    nodeReadyContribution conds = if firstReadyIsTrue conds then 1 else 0 := by
  induction conds with
  | nil => rfl
  | cons c rest ih =>
      by_cases hc : c.condType = nodeReady
      · by_cases hs : c.status = ConditionStatus.conditionTrue
        · simp [nodeReadyContribution, firstReadyIsTrue, hc, hs]
        · simp [nodeReadyContribution, firstReadyIsTrue, hc, hs]
      · simp [nodeReadyContribution, firstReadyIsTrue, hc, ih]

theorem countReadyNodes_foldl (nodes : List Node) :
    ∀ acc : Int,
      List.foldl (fun acc n => acc + nodeReadyContribution n.status.conditions) acc nodes =
        acc + Int.ofNat (List.countP (fun n => firstReadyIsTrue n.status.conditions) nodes) := by
  induction nodes with
  | nil => intro acc; simp
  | cons n rest ih =>
      intro acc
      rw [List.foldl_cons, ih, List.countP_cons, nodeReadyContribution_eq]
      by_cases h : firstReadyIsTrue n.status.conditions = true
      · rw [if_pos h, h]
        simp
        omega
      · rw [if_neg h]
        simp only [Bool.not_eq_true] at h
        rw [h]
        simp

theorem countReadyNodes_eq_countP (nodes : List Node) :
    countReadyNodes nodes =
      Int.ofNat (List.countP (fun n => firstReadyIsTrue n.status.conditions) nodes) := by
  rw [countReadyNodes, countReadyNodes_foldl]
  simp

theorem firstFailureSplit (d : String → Option String) :
    ∀ ns : List Node, ∃ pre after, ns = pre ++ after ∧
      (∀ n ∈ pre, d n.name = none) ∧
      (after = [] ∨ ∃ nk post e, after = nk :: post ∧ d nk.name = some e) := by
  intro ns
  induction ns with
  | nil => exact ⟨[], [], rfl, by simp, Or.inl rfl⟩
  | cons n rest ih =>
      cases hd : d n.name with
      | some e => exact ⟨[], n :: rest, rfl, by simp, Or.inr ⟨n, rest, e, rfl, hd⟩⟩
      | none =>
          obtain ⟨pre, after, heq, hpre, hcase⟩ := ih
          refine ⟨n :: pre, after, by simp [heq], ?_, hcase⟩
          intro x hx
          rcases List.mem_cons.mp hx with rfl | hx
          · exact hd
          · exact hpre x hx

/-- Claim C3: for every create invocation in which the very first poll of the
node list yields a ready count greater than or equal to minReadyNodes, the
operation succeeds immediately: the trace is a single list call with no sleep
of a poll interval, the outcome is success and the state is persisted. -/
theorem claim3_first_poll_satisfied_succeeds_immediately
    (pool : String) (m : Int) (env : Nat → Except String (List Node))
    (timeout : Nat) (nodes : List Node)
    (htimeout : 0 < timeout) (henv : env 0 = Except.ok nodes)
    (hready : countReadyNodes nodes ≥ m) :
    createRun pool m env timeout =
      ⟨[Event.listCall], CreateOutcome.success, true⟩ := by
  cases timeout with
  | zero => exact absurd htimeout (by simp)
  | succ r =>
      simp only [createRun, createLoop, henv]
      rw [if_pos hready]

/-- Witness for claim C3 at a concrete input: one ready node, minReadyNodes 1,
timeout 5 seconds. -/
theorem claim3_witness :
    createRun "p" 1
      (fun _ => Except.ok [⟨"n", ⟨[⟨"Ready", ConditionStatus.conditionTrue⟩]⟩⟩]) 5 =
      ⟨[Event.listCall], CreateOutcome.success, true⟩ :=
  claim3_first_poll_satisfied_succeeds_immediately "p" 1
    (fun _ => Except.ok [⟨"n", ⟨[⟨"Ready", ConditionStatus.conditionTrue⟩]⟩⟩]) 5
    [⟨"n", ⟨[⟨"Ready", ConditionStatus.conditionTrue⟩]⟩⟩]
    (by decide) rfl (by decide)

/-- Claim C9: a create invocation whose ready_timeout parses to a zero
duration performs no node-list call at all (empty trace) and immediately
reports the readiness-timeout failure, for EVERY environment, hence even if
the pool already contains enough ready nodes; state is still persisted. -/
theorem claim9_zero_timeout_fails_without_listing
    (pool : String) (m : Int) (env : Nat → Except String (List Node)) :
    createRun pool m env 0 =
      ⟨[], CreateOutcome.timeoutFailure createTimeoutTitle
        (createTimeoutDetail m pool), true⟩ := rfl

/-- Counterexample to claim C5 as stated: a run with minReadyNodes 2 that
observes exactly 1 ready node on its only poll and then times out; the
failure title and detail do not contain the digit string of the last observed
ready count 1. -/
theorem claim5_counterexample :
    (createRun "p" 2
        (fun _ => Except.ok [⟨"n1", ⟨[⟨"Ready", ConditionStatus.conditionTrue⟩]⟩⟩])
        1).outcome =
      CreateOutcome.timeoutFailure createTimeoutTitle (createTimeoutDetail 2 "p") ∧
    countReadyNodes [⟨"n1", ⟨[⟨"Ready", ConditionStatus.conditionTrue⟩]⟩⟩] = 1 ∧
    containsStr (createTimeoutDetail 2 "p") "1" = false ∧
    containsStr createTimeoutTitle "1" = false := by decide

/-- Claim C5 (amended): every create invocation that ends in a readiness
timeout reports the fixed timeout message, which includes the required count
(minReadyNodes) and the pool name — but not the last observed ready count. -/
theorem claim5_amended_timeout_message
    (pool : String) (m : Int) (env : Nat → Except String (List Node))
    (timeout : Nat) (t d : String)
    (h : (createRun pool m env timeout).outcome = CreateOutcome.timeoutFailure t d) :
    d = createTimeoutDetail m pool ∧
    containsStr d (toString m) = true ∧ containsStr d pool = true := by
  obtain ⟨ht, hd⟩ := createLoop_timeout_message pool m env timeout 0 t d h
  subst hd
  exact ⟨rfl, timeoutDetail_contains_min m pool, timeoutDetail_contains_pool m pool⟩

/-- Witness for the amended claim C5 at a concrete timed-out run. -/
theorem claim5_amended_witness :
    createTimeoutDetail 2 "q" = createTimeoutDetail 2 "q" ∧
    containsStr (createTimeoutDetail 2 "q") (toString (2 : Int)) = true ∧
    containsStr (createTimeoutDetail 2 "q") "q" = true :=
  claim5_amended_timeout_message "q" 2 (fun _ => Except.ok []) 1
    createTimeoutTitle (createTimeoutDetail 2 "q") (by decide)

/-- Counterexample to claim C6 as stated: a create invocation that fails with
the readiness timeout and nevertheless persists the configuration fields as
state (the final State.Set of Create runs on the timeout path as well). -/
theorem claim6_counterexample :
    (createRun "p" 2 (fun _ => Except.ok []) 1).outcome =
      CreateOutcome.timeoutFailure createTimeoutTitle (createTimeoutDetail 2 "p") ∧
    (createRun "p" 2 (fun _ => Except.ok []) 1).persisted = true := by decide

/-- Claim C6 (amended): a create invocation persists the configuration fields
as state exactly when it succeeds OR fails with the readiness timeout; only a
node-list access error leaves the state unpersisted. -/
theorem claim6_amended_persist_iff
    (pool : String) (m : Int) (env : Nat → Except String (List Node))
    (timeout : Nat) :
    (createRun pool m env timeout).persisted = true ↔
      ((createRun pool m env timeout).outcome = CreateOutcome.success ∨
       (createRun pool m env timeout).outcome =
         CreateOutcome.timeoutFailure createTimeoutTitle (createTimeoutDetail m pool)) :=
  createLoop_persisted pool m env timeout 0

/-- Claim C1: in every delete invocation, if the trace contains any drain
attempt then the cordon of EVERY node in the listed set already succeeded
first: the trace is the list call, then exactly one successful cordon event
per listed node in enumeration order, then a tail containing no cordon event
(so the first cordon failure aborts the run before any drain begins). -/
theorem claim1_cordons_complete_before_any_drain
    (pool : String) (nodes : List Node) (c d : String → Option String) (w : Nat)
    (h : ∃ e ∈ (deleteRun pool (Except.ok nodes) c d w).events, isDrainEvent e = true) :
    ∃ tail,
      (deleteRun pool (Except.ok nodes) c d w).events =
        Event.listCall :: (nodes.map (fun n => Event.cordonOk n.name) ++ tail) ∧
      ∀ e ∈ tail, isCordonEvent e = false := by
  cases hcp : (cordonPhase c nodes).2 with
  | some fe =>
      exfalso
      obtain ⟨ev, hev, hdrain⟩ := h
      have hevents : (deleteRun pool (Except.ok nodes) c d w).events =
          Event.listCall :: (cordonPhase c nodes).1 := by
        simp [deleteRun, hcp]
      rw [hevents, List.mem_cons] at hev
      rcases hev with rfl | hev
      · simp [isDrainEvent] at hdrain
      · have hnd := cordonPhase_no_drain c nodes ev hev
        rw [hnd] at hdrain
        exact Bool.noConfusion hdrain
  | none =>
      refine ⟨(drainPhase d w nodes).1, ?_, drainPhase_no_cordon d w nodes⟩
      have hevs := cordonPhase_none_events c nodes hcp
      cases hdp : (drainPhase d w nodes).2 with
      | some fe => simp [deleteRun, hcp, hdp, hevs]
      | none => simp [deleteRun, hcp, hdp, hevs]

/-- Witness for claim C1 at a concrete input: one node whose cordon and drain
both succeed, so the trace contains a drain event. -/
theorem claim1_witness :
    ∃ tail,
      (deleteRun "p" (Except.ok [⟨"a", ⟨[]⟩⟩]) (fun _ => none) (fun _ => none) 0).events =
        Event.listCall ::
          (([⟨"a", ⟨[]⟩⟩] : List Node).map (fun n => Event.cordonOk n.name) ++ tail) ∧
      ∀ e ∈ tail, isCordonEvent e = false :=
  claim1_cordons_complete_before_any_drain "p" [⟨"a", ⟨[]⟩⟩]
    (fun _ => none) (fun _ => none) 0 (by decide)

/-- Claim C2: when every cordon succeeds, the nodes before the k-th drain in
enumeration order drain successfully, the k-th drain fails: the run reports
failure with the drain message naming that node, the trace shows nodes 1..k-1
drained (each followed by the pause), the failing drain attempt, and nothing
at all for nodes k+1..n. -/
theorem claim2_first_drain_failure_aborts
    (pool : String) (c d : String → Option String) (w : Nat)
    (pre : List Node) (nk : Node) (post : List Node) (e : String)
    (hc : ∀ n ∈ pre ++ nk :: post, c n.name = none)
    (hpre : ∀ n ∈ pre, d n.name = none)
    (hk : d nk.name = some e) :
    (deleteRun pool (Except.ok (pre ++ nk :: post)) c d w).outcome =
      DeleteOutcome.failure deleteErrTitle (drainErrDetail nk.name e) ∧
    containsStr (drainErrDetail nk.name e) nk.name = true ∧
    (deleteRun pool (Except.ok (pre ++ nk :: post)) c d w).events =
      Event.listCall ::
        ((pre ++ nk :: post).map (fun n => Event.cordonOk n.name) ++
          (drainOkEvents w pre ++ [Event.drainFail nk.name])) := by
  have hcord := cordonPhase_all_ok c (pre ++ nk :: post) hc
  have hdr := drainPhase_fail d w nk e post pre hpre hk
  refine ⟨?_, drainErrDetail_contains_name nk.name e, ?_⟩
  · simp [deleteRun, hcord, hdr]
  · simp [deleteRun, hcord, hdr]

/-- Witness for claim C2 at a concrete input: three nodes, the second drain
fails. -/
theorem claim2_witness :
    (deleteRun "p" (Except.ok ([⟨"a", ⟨[]⟩⟩] ++ (⟨"b", ⟨[]⟩⟩ : Node) :: [⟨"z", ⟨[]⟩⟩]))
        (fun _ => none) (fun nm => if nm = "b" then some "boom" else none) 7).outcome =
      DeleteOutcome.failure deleteErrTitle (drainErrDetail "b" "boom") ∧
    containsStr (drainErrDetail "b" "boom") "b" = true ∧
    (deleteRun "p" (Except.ok ([⟨"a", ⟨[]⟩⟩] ++ (⟨"b", ⟨[]⟩⟩ : Node) :: [⟨"z", ⟨[]⟩⟩]))
        (fun _ => none) (fun nm => if nm = "b" then some "boom" else none) 7).events =
      Event.listCall ::
        ((([⟨"a", ⟨[]⟩⟩] ++ (⟨"b", ⟨[]⟩⟩ : Node) :: [⟨"z", ⟨[]⟩⟩] : List Node).map
            (fun n => Event.cordonOk n.name)) ++
          (drainOkEvents 7 [⟨"a", ⟨[]⟩⟩] ++ [Event.drainFail "b"])) :=
  claim2_first_drain_failure_aborts "p" (fun _ => none)
    (fun nm => if nm = "b" then some "boom" else none) 7
    [⟨"a", ⟨[]⟩⟩] ⟨"b", ⟨[]⟩⟩ [⟨"z", ⟨[]⟩⟩] "boom"
    (by decide) (by decide) (by decide)

/-- Counterexample to claim C4 as stated: a delete run in which node alpha is
cordoned and then the cordon of node beta fails; the failure title and detail
report the failing node and phase but contain no mention of the
already-cordoned node alpha, so partial progress is NOT included. -/
theorem claim4_counterexample :
    (deleteRun "p" (Except.ok [⟨"alpha", ⟨[]⟩⟩, ⟨"beta", ⟨[]⟩⟩])
        (fun nm => if nm = "beta" then some "boom" else none)
        (fun _ => none) 0).outcome =
      DeleteOutcome.failure deleteErrTitle (cordonErrDetail "beta" "boom") ∧
    (deleteRun "p" (Except.ok [⟨"alpha", ⟨[]⟩⟩, ⟨"beta", ⟨[]⟩⟩])
        (fun nm => if nm = "beta" then some "boom" else none)
        (fun _ => none) 0).events =
      [Event.listCall, Event.cordonOk "alpha", Event.cordonFail "beta"] ∧
    containsStr (cordonErrDetail "beta" "boom") "alpha" = false ∧
    containsStr deleteErrTitle "alpha" = false := by decide

/-- Claim C4 (amended): every delete failure at the cordon or drain phase
reports a message naming the failing node and the phase at which it stopped
(the words cordoning and draining respectively); the message is exactly the
fixed per-phase text with the node name and error, and contains no list of
the nodes already cordoned or drained. -/
theorem claim4_amended_failure_names_node_and_phase
    (pool : String) (c d : String → Option String) (w : Nat)
    (pre : List Node) (nk : Node) (post : List Node) (e : String) :
    ((∀ n ∈ pre, c n.name = none) → c nk.name = some e →
      (deleteRun pool (Except.ok (pre ++ nk :: post)) c d w).outcome =
        DeleteOutcome.failure deleteErrTitle (cordonErrDetail nk.name e) ∧
      containsStr (cordonErrDetail nk.name e) nk.name = true ∧
      containsStr (cordonErrDetail nk.name e) "cordoning" = true) ∧
    ((∀ n ∈ pre ++ nk :: post, c n.name = none) → (∀ n ∈ pre, d n.name = none) →
      d nk.name = some e →
      (deleteRun pool (Except.ok (pre ++ nk :: post)) c d w).outcome =
        DeleteOutcome.failure deleteErrTitle (drainErrDetail nk.name e) ∧
      containsStr (drainErrDetail nk.name e) nk.name = true ∧
      containsStr (drainErrDetail nk.name e) "draining" = true) := by
  constructor
  · intro hpre hk
    have hcord := cordonPhase_fail c nk e post pre hpre hk
    refine ⟨?_, cordonErrDetail_contains_name nk.name e,
      cordonErrDetail_contains_phase nk.name e⟩
    simp [deleteRun, hcord]
  · intro hc hpre hk
    have hcord := cordonPhase_all_ok c (pre ++ nk :: post) hc
    have hdr := drainPhase_fail d w nk e post pre hpre hk
    refine ⟨?_, drainErrDetail_contains_name nk.name e,
      drainErrDetail_contains_phase nk.name e⟩
    simp [deleteRun, hcord, hdr]

/-- Witness for the amended claim C4 at a concrete cordon failure. -/
theorem claim4_amended_witness :
    (deleteRun "p" (Except.ok ([⟨"alpha", ⟨[]⟩⟩] ++ (⟨"beta", ⟨[]⟩⟩ : Node) :: []))
        (fun nm => if nm = "beta" then some "boom" else none)
        (fun _ => none) 0).outcome =
      DeleteOutcome.failure deleteErrTitle (cordonErrDetail "beta" "boom") ∧
    containsStr (cordonErrDetail "beta" "boom") "beta" = true ∧
    containsStr (cordonErrDetail "beta" "boom") "cordoning" = true :=
  (claim4_amended_failure_names_node_and_phase "p"
      (fun nm => if nm = "beta" then some "boom" else none) (fun _ => none) 0
      [⟨"alpha", ⟨[]⟩⟩] ⟨"beta", ⟨[]⟩⟩ [] "boom").1 (by decide) (by decide)

/-- Claim C8: in every delete invocation (with at least two nodes) whose
cordons all succeed, the drain portion of the trace processes the nodes in
enumeration order one at a time: it is the longest prefix of successfully
drained nodes, each drain immediately followed by a sleep of the configured
drain_wait before the next drain event, followed either by nothing (all
drained) or by the first failing drain attempt. -/
theorem claim8_drains_sequential_with_pause
    (pool : String) (nodes : List Node) (c d : String → Option String) (w : Nat)
    (hlen : 2 ≤ nodes.length)
    (hc : ∀ n ∈ nodes, c n.name = none) :
    ∃ pre after, nodes = pre ++ after ∧ (∀ n ∈ pre, d n.name = none) ∧
      ((after = [] ∧
        (deleteRun pool (Except.ok nodes) c d w).events =
          Event.listCall ::
            (nodes.map (fun n => Event.cordonOk n.name) ++ drainOkEvents w pre)) ∨
       (∃ nk post e, after = nk :: post ∧ d nk.name = some e ∧
        (deleteRun pool (Except.ok nodes) c d w).events =
          Event.listCall ::
            (nodes.map (fun n => Event.cordonOk n.name) ++
              (drainOkEvents w pre ++ [Event.drainFail nk.name])))) := by
  have hcord := cordonPhase_all_ok c nodes hc
  obtain ⟨pre, after, heq, hpre, hcase⟩ := firstFailureSplit d nodes
  refine ⟨pre, after, heq, hpre, ?_⟩
  rcases hcase with rfl | ⟨nk, post, e, rfl, hd⟩
  · left
    refine ⟨rfl, ?_⟩
    have hpn : pre = nodes := by rw [heq, List.append_nil]
    subst hpn
    have hdr := drainPhase_all_ok d w pre hpre
    simp [deleteRun, hcord, hdr]
  · right
    refine ⟨nk, post, e, rfl, hd, ?_⟩
    subst heq
    have hdr := drainPhase_fail d w nk e post pre hpre hd
    simp [deleteRun, hcord, hdr]

/-- Witness for claim C8 at a concrete input: two nodes, every cordon and
drain succeeds, drain_wait 3. -/
theorem claim8_witness :
    ∃ pre after, ([⟨"a", ⟨[]⟩⟩, ⟨"b", ⟨[]⟩⟩] : List Node) = pre ++ after ∧
      (∀ n ∈ pre, (fun _ : String => (none : Option String)) n.name = none) ∧
      ((after = [] ∧
        (deleteRun "p" (Except.ok [⟨"a", ⟨[]⟩⟩, ⟨"b", ⟨[]⟩⟩])
            (fun _ => none) (fun _ => none) 3).events =
          Event.listCall ::
            (([⟨"a", ⟨[]⟩⟩, ⟨"b", ⟨[]⟩⟩] : List Node).map
                (fun n => Event.cordonOk n.name) ++ drainOkEvents 3 pre)) ∨
       (∃ nk post e, after = nk :: post ∧
          (fun _ : String => (none : Option String)) nk.name = some e ∧
        (deleteRun "p" (Except.ok [⟨"a", ⟨[]⟩⟩, ⟨"b", ⟨[]⟩⟩])
            (fun _ => none) (fun _ => none) 3).events =
          Event.listCall ::
            (([⟨"a", ⟨[]⟩⟩, ⟨"b", ⟨[]⟩⟩] : List Node).map
                (fun n => Event.cordonOk n.name) ++
              (drainOkEvents 3 pre ++ [Event.drainFail nk.name])))) :=
  claim8_drains_sequential_with_pause "p" [⟨"a", ⟨[]⟩⟩, ⟨"b", ⟨[]⟩⟩]
    (fun _ => none) (fun _ => none) 3 (by decide) (by decide)

/-- Counterexample to claim C7 as stated: a node whose condition list is
[Ready/False, Ready/True] CONTAINS an entry of type "Ready" with status True
(so the claim counts it), but countReadyNodes stops at the FIRST "Ready"
entry, whose status is False, and returns 0. -/
theorem claim7_counterexample :
    countReadyNodes [⟨"n", ⟨[⟨"Ready", ConditionStatus.conditionFalse⟩,
        ⟨"Ready", ConditionStatus.conditionTrue⟩]⟩⟩] = 0 ∧
    specReadyCount [⟨"n", ⟨[⟨"Ready", ConditionStatus.conditionFalse⟩,
        ⟨"Ready", ConditionStatus.conditionTrue⟩]⟩⟩] = 1 := by decide

/-- Claim C7 (amended): countReadyNodes returns exactly the number of nodes
whose FIRST condition entry of type "Ready" has status True (a node with no
"Ready" entry, or whose first "Ready" entry is False or Unknown, is not
counted), and the result is invariant under permutation of the input node
sequence. -/
theorem claim7_amended_counts_first_ready
    (nodes : List Node) :
    countReadyNodes nodes =
      Int.ofNat (List.countP (fun n => firstReadyIsTrue n.status.conditions) nodes) ∧
    ∀ nodes2, List.Perm nodes nodes2 →
      countReadyNodes nodes = countReadyNodes nodes2 := by
  refine ⟨countReadyNodes_eq_countP nodes, ?_⟩
  intro nodes2 hperm
  rw [countReadyNodes_eq_countP, countReadyNodes_eq_countP, hperm.countP_eq]

/-- Witness for the amended claim C7 at a concrete input: a ready node and a
node with no conditions, in both orders. -/
theorem claim7_amended_witness :
    countReadyNodes [⟨"x", ⟨[⟨"Ready", ConditionStatus.conditionTrue⟩]⟩⟩,
        ⟨"y", ⟨[]⟩⟩] =
      Int.ofNat (List.countP (fun n : Node => firstReadyIsTrue n.status.conditions)
        [⟨"x", ⟨[⟨"Ready", ConditionStatus.conditionTrue⟩]⟩⟩, ⟨"y", ⟨[]⟩⟩]) ∧
    countReadyNodes [⟨"x", ⟨[⟨"Ready", ConditionStatus.conditionTrue⟩]⟩⟩,
        ⟨"y", ⟨[]⟩⟩] =
      countReadyNodes [⟨"y", ⟨[]⟩⟩,
        ⟨"x", ⟨[⟨"Ready", ConditionStatus.conditionTrue⟩]⟩⟩] :=
  ⟨(claim7_amended_counts_first_ready
      [⟨"x", ⟨[⟨"Ready", ConditionStatus.conditionTrue⟩]⟩⟩, ⟨"y", ⟨[]⟩⟩]).1,
   (claim7_amended_counts_first_ready
      [⟨"x", ⟨[⟨"Ready", ConditionStatus.conditionTrue⟩]⟩⟩, ⟨"y", ⟨[]⟩⟩]).2
      [⟨"y", ⟨[]⟩⟩, ⟨"x", ⟨[⟨"Ready", ConditionStatus.conditionTrue⟩]⟩⟩]
      (List.Perm.swap _ _ _)⟩

/-- Claim C10: Read and Update perform no cluster API call, no cordon, no
drain and no sleep (their event traces are empty), and only copy the incoming
prior-state or plan model back into the Terraform state (none when reading
the model failed). -/
theorem claim10_read_update_only_copy_model
    (m : NodePoolResourceModel) (e : String) :
    readOp (Except.ok m) = ([], some m) ∧
    readOp (Except.error e) = ([], none) ∧
    updateOp (Except.ok m) = ([], some m) ∧
    updateOp (Except.error e) = ([], none) :=
  ⟨rfl, rfl, rfl, rfl⟩
